import Mathlib

/-!
Shallow embedding of the CraftAISRC voxel program (`src/program.py`).

The program is an Ursina script.  Every block in the world is a separate
`Voxel` entity living in the scene; the world state is therefore modelled as
the list of entities in creation order (`World`).  Creating a `Voxel` appends
an entity; `destroy(self)` removes exactly that entity.  Nothing in the
source de-duplicates entities that share a position, so one coordinate can
hold several blocks.

Conventions of the embedding:
* block coordinates are integer triples (`Coord`); generation and block
  placement only ever produce integral positions,
* real-valued quantities of the source (noise samples, the player position)
  are rationals (`ℚ`),
* the Perlin noise object is an arbitrary parameter `noise : ℚ → ℚ → ℚ`
  (the script seeds it randomly, so every theorem quantifies over it),
* Python's `raise` (the `ValueError` in `Voxel.__init__`, the `KeyError`
  reachable in the global key handler) is modelled by `Option`, with `none`
  for an uncaught exception.
-/

/-- Integer cell coordinate (x, y, z), as used for every block position. -/
structure Coord where
  x : Int
  y : Int
  z : Int
deriving DecidableEq, Repr

instance : Add Coord := ⟨fun a b => ⟨a.x + b.x, a.y + b.y, a.z + b.z⟩⟩

theorem Coord.add_def (a b : Coord) : a + b = ⟨a.x + b.x, a.y + b.y, a.z + b.z⟩ := rfl

/-- One `Voxel` entity of the scene: its position and its block type name. -/
structure Entity where
  pos : Coord
  block_type : String
deriving DecidableEq, Repr

/-- The scene's block entities in creation order. -/
abbrev World := List Entity

/-- The keys of the `BLOCK_TYPES` dictionary (line 41 of `program.py`). -/
def BLOCK_TYPE_NAMES : List String := ["grass", "dirt", "stone", "bedrock", "wood"]

/-- The constructor `Voxel.__init__`: raises `ValueError` (here `none`) for an unknown block
type, otherwise appends the new entity to the scene. -/
def mkVoxel (w : World) (bt : String) (pos : Coord) : Option World :=
  if bt ∈ BLOCK_TYPE_NAMES then some (w ++ [⟨pos, bt⟩]) else none

/-- All block type names at one coordinate, in creation order (the scene can
hold several entities at the same position). -/
def blocksAt (w : World) (c : Coord) : List String :=
  (w.filter (fun e => decide (e.pos = c))).map Entity.block_type

/-- The most recently created block at a coordinate, if any. -/
def lastBlockAt (w : World) (c : Coord) : Option String :=
  (blocksAt w c).getLast?

/-- At most one block per coordinate (the spec's uniqueness-of-occupancy). -/
def occupancyUnique (w : World) : Prop :=
  ∀ c : Coord, (blocksAt w c).length ≤ 1

/-- Real-valued position (the player's), as a rational triple. -/
structure Vec3 where
  x : ℚ
  y : ℚ
  z : ℚ
deriving DecidableEq, Repr

/-- Python's built-in `round`: round half to even (banker's rounding). -/
def pyRound (q : ℚ) : Int :=
  let f := ⌊q⌋
  let r := q - (f : ℚ)
  if r < 1/2 then f
  else if 1/2 < r then f + 1
  else if f % 2 = 0 then f else f + 1

/-- The actor's occupied cell: the player position rounded per axis, as in
`round(player.x)`, `round(player.y)`, `round(player.z)` (lines 82-84). -/
def roundedCell (p : Vec3) : Coord :=
  ⟨pyRound p.x, pyRound p.y, pyRound p.z⟩

/-- Outcome of one `Voxel.input` dispatch, naming the branch that ran:
an entity was appended, the actor-cell guard rejected the placement, the
hovered entity was removed, the bedrock guard kept it, or nothing happened. -/
inductive Outcome where
  | placed
  | occupiedByActor
  | removed
  | indestructible
  | noop
deriving DecidableEq, Repr

/-- The place branch of `Voxel.input` (lines 79-85): reject when the target
equals the actor's rounded cell, otherwise construct a `Voxel` of the
currently selected type at the target. -/
def place (w : World) (target : Coord) (cur : String) (p : Vec3) :
    Option (World × Outcome) :=
  if target.x = pyRound p.x ∧ target.y = pyRound p.y ∧ target.z = pyRound p.z then
    some (w, Outcome.occupiedByActor)
  else
    (mkVoxel w cur target).map (fun w' => (w', Outcome.placed))

/-- The key strings `Voxel.input` tests for (lines 79 and 89). -/
inductive Key where
  | rightMouseDown
  | leftMouseDown
  | otherKey (s : String)
deriving DecidableEq, Repr

/-- The method `Voxel.input(self, key)` (lines 75-92).  `i` indexes the entity the
method runs on, `hovered` is `self.hovered`, `normal` is `mouse.normal`,
`p` the player position and `cur` the global `current_block_type`.  With no
hover the method does nothing; right mouse places at `self.position +
mouse.normal`; left mouse destroys `self` unless it is bedrock. -/
def voxelInput (w : World) (i : Nat) (hovered : Bool) (key : Key)
    (normal : Coord) (p : Vec3) (cur : String) : Option (World × Outcome) :=
  if hovered then
    match key with
    | Key.rightMouseDown =>
        match w[i]? with
        | some e => place w (e.pos + normal) cur p
        | none => some (w, Outcome.noop)
    | Key.leftMouseDown =>
        match w[i]? with
        | some e =>
            if e.block_type ≠ "bedrock" then some (w.eraseIdx i, Outcome.removed)
            else some (w, Outcome.indestructible)
        | none => some (w, Outcome.noop)
    | Key.otherKey _ => some (w, Outcome.noop)
  else
    some (w, Outcome.noop)

/-- The noise frequency `0.03` applied to both column coordinates (line 106). -/
def freq : ℚ := 3 / 100

/-- Column surface height (lines 106-107):
`floor(noise([x * 0.03, z * 0.03]) * world_height)`. -/
def columnHeight (noise : ℚ → ℚ → ℚ) (wh : Int) (x z : Int) : Int :=
  ⌊noise ((x : ℚ) * freq) ((z : ℚ) * freq) * (wh : ℚ)⌋

/-- Structural helper for Python's descending `range`: `n` is the element
count, `start` the first element, stepping by `-1`. -/
def pyRangeDownAux : Nat → Int → List Int
  | 0, _ => []
  | n + 1, start => start :: pyRangeDownAux n (start - 1)

/-- Python's `range(start, stop, -1)`: the integers from `start` down to
`stop + 1`, empty when `start ≤ stop`. -/
def pyRangeDown (start stop : Int) : List Int :=
  pyRangeDownAux (start - stop).toNat start

/-- The stone fill levels of one column: `range(int(y) - 3, -1, -1)`
(line 115), i.e. `height - 3` down to `0`, empty when `height - 3 < 0`. -/
def stoneYs (h : Int) : List Int := pyRangeDown (h - 3) (-1)

/-- The per-column body of the generation loop (lines 105-119): grass at the
surface, dirt at the two levels beneath, stone from `height - 3` down to
`0`, and bedrock at `y = -1`, in that creation order. -/
def genColumn (noise : ℚ → ℚ → ℚ) (wh : Int) (x z : Int) : List Entity :=
  let h := columnHeight noise wh x z
  ⟨⟨x, h, z⟩, "grass"⟩ :: ⟨⟨x, h - 1, z⟩, "dirt"⟩ :: ⟨⟨x, h - 2, z⟩, "dirt"⟩ ::
    ((stoneYs h).map (fun y => ⟨⟨x, y, z⟩, "stone"⟩) ++ [⟨⟨x, -1, z⟩, "bedrock"⟩])

/-- The world generation loop (lines 103-119): `z` outer, `x` inner over
`range(world_size)`, appending each column's entities in order. -/
def generateWorld (noise : ℚ → ℚ → ℚ) (ws : Nat) (wh : Int) : World :=
  (List.range ws).flatMap (fun z =>
    (List.range ws).flatMap (fun x => genColumn noise wh (x : Int) (z : Int)))

/-- The constant `world_size = 24` (line 99). -/
def world_size : Nat := 24

/-- The constant `world_height = 8` (line 100). -/
def world_height : Int := 8

/-- The global `current_block_type = 'grass'` (line 50), the initial selection. -/
def initial_current_block_type : String := "grass"

/-- The digit-to-name table of the global key handler (line 162). -/
def block_map : List (String × String) :=
  [("1", "grass"), ("2", "dirt"), ("3", "stone"), ("4", "wood")]

/-- Python's `str.isdigit` restricted to ASCII decimal keys. -/
def pyIsDigit (s : String) : Bool :=
  decide (s.length > 0) && s.toList.all Char.isDigit

/-- Python's `int` on an all-digit string. -/
def digitsToNat (s : String) : Nat :=
  s.toList.foldl (fun a ch => a * 10 + (ch.toNat - 48)) 0

/-- The selection guard `key.isdigit() and int(key) in range(1, 5)`
(line 161). -/
def selKeyHit (k : String) : Bool :=
  pyIsDigit k && decide (1 ≤ digitsToNat k) && decide (digitsToNat k < 5)

/-- The state the global key handler reads and writes: the selected block
type and the player position. -/
structure GlobalState where
  current_block_type : String
  player : Vec3
deriving DecidableEq, Repr

/-- The fall-reset threshold `-10` (line 167). -/
def fall_threshold : ℚ := -10

/-- The respawn point `(world_size / 2, world_height + 5, world_size / 2)`
(line 168). -/
def respawn_position : Vec3 :=
  ⟨(world_size : ℚ) / 2, (world_height : ℚ) + 5, (world_size : ℚ) / 2⟩

/-- The global `input(key)` handler (lines 157-168): keys `'1'`-`'4'` select
a block type via `block_map` (a key passing the digit guard but missing from
the table would raise `KeyError`, modelled by `none`); afterwards the player
is reset to the respawn point when `player.y < -10`.  The handler touches no
block entity. -/
def globalInput (k : String) (st : GlobalState) : Option GlobalState :=
  let sel? : Option String :=
    if selKeyHit k then block_map.lookup k else some st.current_block_type
  match sel? with
  | none => none
  | some sel =>
      let p := st.player
      let p' := if p.y < fall_threshold then respawn_position else p
      some ⟨sel, p'⟩

/-- Discrete engine events: a key press (which runs the global handler) or a
frame tick.  The source defines no module-level `update` function, so a
frame tick without input runs none of the repository's code. -/
inductive FrameEvent where
  | keyEvent (k : String)
  | frameTick
deriving DecidableEq, Repr

/-- One engine step of the global handler state. -/
def stepEvent (st : GlobalState) : FrameEvent → Option GlobalState
  | FrameEvent.keyEvent k => globalInput k st
  | FrameEvent.frameTick => some st

/-! ### Helper lemmas about the embedded operations -/

theorem mem_pyRangeDownAux {y : Int} :
    ∀ (n : Nat) (s : Int), y ∈ pyRangeDownAux n s ↔ s - n < y ∧ y ≤ s := by
  intro n
  induction n with
  | zero =>
      intro s
      simp only [pyRangeDownAux, List.not_mem_nil, false_iff, not_and]
      omega
  | succ m ih =>
      intro s
      simp only [pyRangeDownAux, List.mem_cons, ih (s - 1)]
      omega


theorem mem_stoneYs {y h : Int} : y ∈ stoneYs h ↔ 0 ≤ y ∧ y ≤ h - 3 := by
  unfold stoneYs pyRangeDown
  rw [mem_pyRangeDownAux]
  omega

theorem pairwise_gt_pyRangeDownAux :
    ∀ (n : Nat) (s : Int), List.Pairwise (fun a b => b < a) (pyRangeDownAux n s) := by
  intro n
  induction n with
  | zero => intro s; simp [pyRangeDownAux]
  | succ m ih =>
      intro s
      refine List.pairwise_cons.mpr ⟨?_, ih (s - 1)⟩
      intro y hy
      have hm := (mem_pyRangeDownAux (y := y) m (s - 1)).mp hy
      omega

theorem blocksAt_nil (c : Coord) : blocksAt [] c = [] := rfl

theorem blocksAt_cons (e : Entity) (w : World) (c : Coord) :
    blocksAt (e :: w) c =
      if e.pos = c then e.block_type :: blocksAt w c else blocksAt w c := by
  by_cases h : e.pos = c <;> simp [blocksAt, List.filter_cons, h]

theorem blocksAt_append (w₁ w₂ : World) (c : Coord) :
    blocksAt (w₁ ++ w₂) c = blocksAt w₁ c ++ blocksAt w₂ c := by
  simp [blocksAt, List.filter_append]

theorem blocksAt_eq_nil_of_not_mem (w : World) (c : Coord)
    (h : ∀ e ∈ w, e.pos ≠ c) : blocksAt w c = [] := by
  have hf : w.filter (fun e => decide (e.pos = c)) = [] :=
    List.filter_eq_nil_iff.mpr (by intro e he; simpa using h e he)
  simp [blocksAt, hf]

theorem blocksAt_eraseIdx (w : World) (i : Nat) (e : Entity) (he : w[i]? = some e) :
    (∀ c : Coord, c ≠ e.pos → blocksAt (w.eraseIdx i) c = blocksAt w c) ∧
      (blocksAt (w.eraseIdx i) e.pos).length + 1 = (blocksAt w e.pos).length := by
  induction w generalizing i with
  | nil => simp at he
  | cons a t ih =>
      cases i with
      | zero =>
          rw [List.getElem?_cons_zero] at he
          injection he with he
          subst he
          constructor
          · intro c hc
            rw [List.eraseIdx_cons_zero, blocksAt_cons, if_neg (fun hh => hc hh.symm)]
          · rw [List.eraseIdx_cons_zero, blocksAt_cons, if_pos rfl]
            simp
      | succ j =>
          rw [List.getElem?_cons_succ] at he
          have IH := ih j he
          constructor
          · intro c hc
            rw [List.eraseIdx_cons_succ, blocksAt_cons, blocksAt_cons, IH.1 c hc]
          · rw [List.eraseIdx_cons_succ, blocksAt_cons, blocksAt_cons]
            by_cases hac : a.pos = e.pos
            · rw [if_pos hac, if_pos hac]
              simpa using IH.2
            · rw [if_neg hac, if_neg hac]
              exact IH.2

theorem occupancyUnique_of_nodup (w : World) (h : (w.map Entity.pos).Nodup) :
    occupancyUnique w := by
  intro c
  induction w with
  | nil => simp [blocksAt_nil]
  | cons a t ih =>
      rw [List.map_cons, List.nodup_cons] at h
      rw [blocksAt_cons]
      by_cases hc : a.pos = c
      · rw [if_pos hc]
        subst hc
        have hnil : blocksAt t a.pos = [] := by
          apply blocksAt_eq_nil_of_not_mem
          intro e het heq
          exact h.1 (heq ▸ List.mem_map_of_mem Entity.pos het)
        simp [hnil]
      · rw [if_neg hc]
        exact ih h.2

theorem length_blocksAt_eraseIdx_le (w : World) (i : Nat) (c : Coord) :
    (blocksAt (w.eraseIdx i) c).length ≤ (blocksAt w c).length := by
  have hsub := ((List.eraseIdx_sublist w i).filter
    (fun e => decide (e.pos = c))).map Entity.block_type
  exact hsub.length_le

theorem occupancyUnique_eraseIdx (w : World) (i : Nat)
    (h : occupancyUnique w) : occupancyUnique (w.eraseIdx i) := by
  intro c
  exact le_trans (length_blocksAt_eraseIdx_le w i c) (h c)

theorem occupancyUnique_append_single (w : World) (c : Coord) (t : String)
    (h : occupancyUnique w) (hc : blocksAt w c = []) :
    occupancyUnique (w ++ [⟨c, t⟩]) := by
  intro c'
  rw [blocksAt_append]
  by_cases hcc : c = c'
  · subst hcc
    rw [hc, blocksAt_cons]
    simp [blocksAt_nil]
  · have : blocksAt [(⟨c, t⟩ : Entity)] c' = [] := by
      rw [blocksAt_cons, if_neg hcc, blocksAt_nil]
    rw [this, List.append_nil]
    exact h c'

theorem mem_genColumn_pos (noise : ℚ → ℚ → ℚ) (wh x z : Int) (e : Entity)
    (he : e ∈ genColumn noise wh x z) : e.pos.x = x ∧ e.pos.z = z := by
  simp only [genColumn, List.mem_cons, List.mem_append, List.mem_map,
    List.mem_singleton, List.not_mem_nil, or_false] at he
  rcases he with rfl | rfl | rfl | ⟨y, _, rfl⟩ | rfl <;> exact ⟨rfl, rfl⟩

theorem nodup_genColumn_pos (noise : ℚ → ℚ → ℚ) (wh x z : Int)
    (hh : 2 ≤ columnHeight noise wh x z) :
    ((genColumn noise wh x z).map Entity.pos).Nodup := by
  set h := columnHeight noise wh x z with hdef
  have hmap : (genColumn noise wh x z).map Entity.pos =
      (h :: (h - 1) :: (h - 2) :: (stoneYs h ++ [-1])).map
        (fun y => (⟨x, y, z⟩ : Coord)) := by
    simp [genColumn, ← hdef, List.map_append, List.map_map, Function.comp]
  rw [hmap]
  apply List.Nodup.map
  · intro a b hab
    simpa using congrArg Coord.y hab
  · have hpair : List.Pairwise (fun a b => b < a)
        (h :: (h - 1) :: (h - 2) :: (stoneYs h ++ [-1])) := by
      refine List.pairwise_cons.mpr ⟨?_, List.pairwise_cons.mpr ⟨?_,
        List.pairwise_cons.mpr ⟨?_, ?_⟩⟩⟩
      · intro y hy
        simp only [List.mem_cons, List.mem_append, List.mem_singleton,
          List.not_mem_nil, or_false, mem_stoneYs] at hy
        rcases hy with rfl | rfl | hy | rfl <;> omega
      · intro y hy
        simp only [List.mem_cons, List.mem_append, List.mem_singleton,
          List.not_mem_nil, or_false, mem_stoneYs] at hy
        rcases hy with rfl | hy | rfl <;> omega
      · intro y hy
        simp only [List.mem_cons, List.mem_append, List.mem_singleton,
          List.not_mem_nil, or_false, mem_stoneYs] at hy
        rcases hy with hy | rfl <;> omega
      · refine List.pairwise_append.mpr ⟨?_, ?_, ?_⟩
        · exact pairwise_gt_pyRangeDownAux _ _
        · simp
        · intro a ha b hb
          rw [List.mem_singleton] at hb
          rw [mem_stoneYs] at ha
          omega
    exact hpair.imp (fun {a b} hba => (ne_of_lt hba).symm)

theorem mem_mapPos_genColumn (noise : ℚ → ℚ → ℚ) (wh x z : Int) (p : Coord)
    (hp : p ∈ (genColumn noise wh x z).map Entity.pos) : p.x = x ∧ p.z = z := by
  rcases List.mem_map.mp hp with ⟨e, he, rfl⟩
  exact mem_genColumn_pos noise wh x z e he

theorem occupancyUnique_generateWorld (noise : ℚ → ℚ → ℚ) (ws : Nat) (wh : Int)
    (hh : ∀ x z : Nat, x < ws → z < ws →
      2 ≤ columnHeight noise wh (x : Int) (z : Int)) :
    occupancyUnique (generateWorld noise ws wh) := by
  apply occupancyUnique_of_nodup
  rw [generateWorld, List.map_flatMap]
  apply List.nodup_flatMap.mpr
  constructor
  · intro z hz
    rw [List.map_flatMap]
    apply List.nodup_flatMap.mpr
    constructor
    · intro x hx
      exact nodup_genColumn_pos noise wh x z
        (hh x z (List.mem_range.mp hx) (List.mem_range.mp hz))
    · apply List.Pairwise.imp ?_ (List.pairwise_lt_range ws)
      intro x₁ x₂ hlt
      intro p hp₁ hp₂
      have h1 := mem_mapPos_genColumn noise wh x₁ z p hp₁
      have h2 := mem_mapPos_genColumn noise wh x₂ z p hp₂
      omega
  · apply List.Pairwise.imp ?_ (List.pairwise_lt_range ws)
    intro z₁ z₂ hlt
    intro p hp₁ hp₂
    simp only [List.map_flatMap, List.mem_flatMap] at hp₁ hp₂
    rcases hp₁ with ⟨x₁, _, hpx₁⟩
    rcases hp₂ with ⟨x₂, _, hpx₂⟩
    have h1 := mem_mapPos_genColumn noise wh x₁ z₁ p hpx₁
    have h2 := mem_mapPos_genColumn noise wh x₂ z₂ p hpx₂
    omega

/-- The predicate picking one column's entities out of the world. -/
def colPred (x z : Int) : Entity → Bool :=
  fun e => decide (e.pos.x = x) && decide (e.pos.z = z)

theorem filter_genColumn (noise : ℚ → ℚ → ℚ) (wh x z x' z' : Int) :
    (genColumn noise wh x' z').filter (colPred x z) =
      if x' = x ∧ z' = z then genColumn noise wh x' z' else [] := by
  by_cases hxz : x' = x ∧ z' = z
  · rw [if_pos hxz]
    apply List.filter_eq_self.mpr
    intro e he
    have hpos := mem_genColumn_pos noise wh x' z' e he
    simp [colPred, hpos.1, hpos.2, hxz.1, hxz.2]
  · rw [if_neg hxz]
    apply List.filter_eq_nil_iff.mpr
    intro e he
    have hpos := mem_genColumn_pos noise wh x' z' e he
    simp only [colPred, hpos.1, hpos.2, Bool.and_eq_true, decide_eq_true_eq]
    intro hcon
    exact hxz hcon

theorem flatMap_single {α : Type} (l : List Nat) (g : Nat → List α) (x₀ : Nat)
    (hx : x₀ ∈ l) (hnd : l.Nodup) (hz : ∀ a ∈ l, a ≠ x₀ → g a = []) :
    l.flatMap g = g x₀ := by
  induction l with
  | nil => simp at hx
  | cons a t ih =>
      rw [List.flatMap_cons]
      rcases List.mem_cons.mp hx with rfl | hxt
      · have ht : t.flatMap g = [] := by
          apply List.flatMap_eq_nil_iff.mpr
          intro b hb
          refine hz b (List.mem_cons_of_mem _ hb) ?_
          intro hba
          exact (List.nodup_cons.mp hnd).1 (hba ▸ hb)
        rw [ht, List.append_nil]
      · have ha : g a = [] := by
          refine hz a (List.mem_cons_self a t) ?_
          intro haa
          exact (List.nodup_cons.mp hnd).1 (haa ▸ hxt)
        rw [ha, List.nil_append]
        exact ih hxt (List.nodup_cons.mp hnd).2
          (fun b hb => hz b (List.mem_cons_of_mem _ hb))

theorem filter_generateWorld (noise : ℚ → ℚ → ℚ) (ws : Nat) (wh : Int)
    (x z : Nat) (hx : x < ws) (hz : z < ws) :
    (generateWorld noise ws wh).filter (colPred (x : Int) (z : Int)) =
      genColumn noise wh (x : Int) (z : Int) := by
  rw [generateWorld, List.filter_flatMap]
  have houter : ∀ z' ∈ List.range ws, z' ≠ z →
      (List.filter (colPred (x : Int) (z : Int))
        ((List.range ws).flatMap (fun x' => genColumn noise wh (x' : Int) (z' : Int)))) = [] := by
    intro z' _ hne
    rw [List.filter_flatMap]
    apply List.flatMap_eq_nil_iff.mpr
    intro x' _
    rw [filter_genColumn, if_neg]
    intro hcon
    exact hne (by exact_mod_cast hcon.2)
  rw [flatMap_single (List.range ws) _ z (List.mem_range.mpr hz)
    (List.nodup_range ws) houter]
  rw [List.filter_flatMap]
  have hinner : ∀ x' ∈ List.range ws, x' ≠ x →
      (genColumn noise wh (x' : Int) (z : Int)).filter (colPred (x : Int) (z : Int)) = [] := by
    intro x' _ hne
    rw [filter_genColumn, if_neg]
    intro hcon
    exact hne (by exact_mod_cast hcon.1)
  rw [flatMap_single (List.range ws) _ x (List.mem_range.mpr hx)
    (List.nodup_range ws) hinner]
  rw [filter_genColumn, if_pos ⟨rfl, rfl⟩]

/-! ### Concrete evaluation helpers -/

theorem columnHeight_const (cst : ℚ) (wh : Int) (n : Int)
    (h : cst * (wh : ℚ) = (n : ℚ)) (x z : Int) :
    columnHeight (fun _ _ => cst) wh x z = n := by
  simp [columnHeight, h, Int.floor_intCast]

theorem generateWorld_one (noise : ℚ → ℚ → ℚ) (wh : Int) :
    generateWorld noise 1 wh = genColumn noise wh 0 0 := by
  have h1 : List.range 1 = [0] := rfl
  simp [generateWorld, h1]

theorem genColumn_eval (noise : ℚ → ℚ → ℚ) (wh x z h : Int)
    (hh : columnHeight noise wh x z = h) :
    genColumn noise wh x z =
      ⟨⟨x, h, z⟩, "grass"⟩ :: ⟨⟨x, h - 1, z⟩, "dirt"⟩ :: ⟨⟨x, h - 2, z⟩, "dirt"⟩ ::
        ((stoneYs h).map (fun y => ⟨⟨x, y, z⟩, "stone"⟩) ++
          [⟨⟨x, -1, z⟩, "bedrock"⟩]) := by
  simp [genColumn, hh]

theorem generateWorld_zeroNoise :
    generateWorld (fun _ _ => (0 : ℚ)) 1 8 =
      [⟨⟨0, 0, 0⟩, "grass"⟩, ⟨⟨0, -1, 0⟩, "dirt"⟩, ⟨⟨0, -2, 0⟩, "dirt"⟩,
        ⟨⟨0, -1, 0⟩, "bedrock"⟩] := by
  rw [generateWorld_one,
    genColumn_eval (fun _ _ => (0 : ℚ)) 8 0 0 0
      (columnHeight_const 0 8 0 (by norm_num) 0 0)]
  decide

theorem generateWorld_eighthNoise :
    generateWorld (fun _ _ => (1 : ℚ)/8) 1 8 =
      [⟨⟨0, 1, 0⟩, "grass"⟩, ⟨⟨0, 0, 0⟩, "dirt"⟩, ⟨⟨0, -1, 0⟩, "dirt"⟩,
        ⟨⟨0, -1, 0⟩, "bedrock"⟩] := by
  rw [generateWorld_one,
    genColumn_eval (fun _ _ => (1 : ℚ)/8) 8 0 0 1
      (columnHeight_const ((1 : ℚ)/8) 8 1 (by norm_num) 0 0)]
  decide

theorem pyRound_intCast (n : Int) : pyRound ((n : ℚ)) = n := by
  simp [pyRound, Int.floor_intCast]


/-! ### Claim C1 -/

/-- C1 (confirmed): for every column (x, z) of the `world_size` by
`world_size` footprint, generation computes
`height = floor(noise(x * freq, z * freq) * world_height)` and the column's
entities are exactly grass at `height`, dirt at `height - 1` and
`height - 2`, stone at every integer y from `height - 3` down to `0`
inclusive (an empty range when `height - 3 < 0`), and bedrock at `y = -1`. -/
theorem generation_column_layers_C1 (noise : ℚ → ℚ → ℚ) (ws : Nat) (wh : Int)
    (x z : Nat) (hx : x < ws) (hz : z < ws) :
    columnHeight noise wh (x : Int) (z : Int) =
        ⌊noise (((x : Int) : ℚ) * freq) (((z : Int) : ℚ) * freq) * (wh : ℚ)⌋
    ∧ (generateWorld noise ws wh).filter (colPred (x : Int) (z : Int)) =
        ⟨⟨(x : Int), columnHeight noise wh (x : Int) (z : Int), (z : Int)⟩, "grass"⟩ ::
        ⟨⟨(x : Int), columnHeight noise wh (x : Int) (z : Int) - 1, (z : Int)⟩, "dirt"⟩ ::
        ⟨⟨(x : Int), columnHeight noise wh (x : Int) (z : Int) - 2, (z : Int)⟩, "dirt"⟩ ::
          ((stoneYs (columnHeight noise wh (x : Int) (z : Int))).map
              (fun y => ⟨⟨(x : Int), y, (z : Int)⟩, "stone"⟩) ++
            [⟨⟨(x : Int), -1, (z : Int)⟩, "bedrock"⟩])
    ∧ (∀ y : Int, y ∈ stoneYs (columnHeight noise wh (x : Int) (z : Int)) ↔
        0 ≤ y ∧ y ≤ columnHeight noise wh (x : Int) (z : Int) - 3) := by
  refine ⟨rfl, ?_, fun y => mem_stoneYs⟩
  rw [filter_generateWorld noise ws wh x z hx hz]
  rfl

/-- Witness for C1 at `noise = 0`, `world_size = 2`, `world_height = 8`,
column `(1, 0)`: the hypotheses hold and the column content evaluates. -/
theorem generation_column_layers_C1_witness :
    ((1 : Nat) < 2 ∧ (0 : Nat) < 2) ∧
      (generateWorld (fun _ _ => (0 : ℚ)) 2 8).filter (colPred 1 0) =
        [⟨⟨1, 0, 0⟩, "grass"⟩, ⟨⟨1, -1, 0⟩, "dirt"⟩, ⟨⟨1, -2, 0⟩, "dirt"⟩,
          ⟨⟨1, -1, 0⟩, "bedrock"⟩] := by
  refine ⟨⟨by decide, by decide⟩, ?_⟩
  have h := (generation_column_layers_C1 (fun _ _ => (0 : ℚ)) 2 8 1 0
    (by decide) (by decide)).2.1
  have hc : columnHeight (fun _ _ => (0 : ℚ)) 8 ((1 : Nat) : Int) ((0 : Nat) : Int) = 0 :=
    columnHeight_const 0 8 0 (by norm_num) _ _
  rw [hc] at h
  push_cast at h
  rw [h]
  decide

theorem voxelInput_not_hovered (w : World) (i : Nat) (key : Key) (n : Coord)
    (p : Vec3) (cur : String) :
    voxelInput w i false key n p cur = some (w, Outcome.noop) := by
  simp [voxelInput]

theorem voxelInput_destroy_eq (w : World) (i : Nat) (n : Coord) (p : Vec3)
    (cur : String) (e : Entity) (he : w[i]? = some e) :
    voxelInput w i true Key.leftMouseDown n p cur =
      if e.block_type ≠ "bedrock" then some (w.eraseIdx i, Outcome.removed)
      else some (w, Outcome.indestructible) := by
  simp only [voxelInput, if_true, he]

theorem voxelInput_destroy_none (w : World) (i : Nat) (n : Coord) (p : Vec3)
    (cur : String) (he : w[i]? = none) :
    voxelInput w i true Key.leftMouseDown n p cur = some (w, Outcome.noop) := by
  simp only [voxelInput, if_true, he]

theorem voxelInput_place_eq (w : World) (i : Nat) (n : Coord) (p : Vec3)
    (cur : String) (e : Entity) (he : w[i]? = some e) :
    voxelInput w i true Key.rightMouseDown n p cur = place w (e.pos + n) cur p := by
  simp only [voxelInput, if_true, he]

/-! ### Claim C2 -/

/-- C2 counterexample: the claim "no coordinate holds more than one block
after generation" fails on a concrete generated world: with constant noise
`1/8` (column height 1) the single column holds both a dirt and a bedrock
entity at (0, -1, 0). -/
theorem occupancy_unique_C2_counterexample :
    ¬ occupancyUnique (generateWorld (fun _ _ => (1 : ℚ)/8) 1 8) := by
  intro hocc
  have h := hocc ⟨0, -1, 0⟩
  rw [generateWorld_eighthNoise] at h
  revert h
  decide

/-- C2 (corrected): uniqueness of occupancy is not unconditional.  It holds
after generation provided every column height is at least 2 (otherwise the
dirt at `height - 1` or `height - 2` collides with the bedrock at `y = -1`);
it is preserved by the destroy branch of `Voxel.input`; and it is preserved
by a placement whose target cell is empty (a placement onto an occupied
cell adds a second entity instead of replacing). -/
theorem occupancy_unique_C2_amended :
    (∀ (noise : ℚ → ℚ → ℚ) (ws : Nat) (wh : Int),
      (∀ x z : Nat, x < ws → z < ws →
        2 ≤ columnHeight noise wh (x : Int) (z : Int)) →
      occupancyUnique (generateWorld noise ws wh))
  ∧ (∀ (w : World) (i : Nat) (n : Coord) (p : Vec3) (cur : String)
      (res : World × Outcome),
      voxelInput w i true Key.leftMouseDown n p cur = some res →
      occupancyUnique w → occupancyUnique res.1)
  ∧ (∀ (w : World) (c : Coord) (t : String) (p : Vec3) (res : World × Outcome),
      blocksAt w c = [] → place w c t p = some res →
      occupancyUnique w → occupancyUnique res.1) := by
  refine ⟨occupancyUnique_generateWorld, ?_, ?_⟩
  · intro w i n p cur res hstep hocc
    cases hw : w[i]? with
    | none =>
        rw [voxelInput_destroy_none w i n p cur hw] at hstep
        injection hstep with h1
        cases h1
        exact hocc
    | some e =>
        rw [voxelInput_destroy_eq w i n p cur e hw] at hstep
        by_cases hb : e.block_type = "bedrock"
        · rw [if_neg (fun hne => hne hb)] at hstep
          injection hstep with h1
          cases h1
          exact hocc
        · rw [if_pos hb] at hstep
          injection hstep with h1
          cases h1
          exact occupancyUnique_eraseIdx w i hocc
  · intro w c t p res hempty hplace hocc
    rw [place] at hplace
    by_cases hcp : c.x = pyRound p.x ∧ c.y = pyRound p.y ∧ c.z = pyRound p.z
    · rw [if_pos hcp] at hplace
      injection hplace with h1
      cases h1
      exact hocc
    · rw [if_neg hcp, mkVoxel] at hplace
      by_cases ht : t ∈ BLOCK_TYPE_NAMES
      · rw [if_pos ht] at hplace
        simp only [Option.map_some'] at hplace
        injection hplace with h1
        cases h1
        exact occupancyUnique_append_single w c t hocc hempty
      · rw [if_neg ht] at hplace
        simp at hplace

/-- Witness for C2 at constant noise `1/4`, `world_size = 2`,
`world_height = 8`: every column height is 2 and the generated world has at
most one block per coordinate. -/
theorem occupancy_unique_C2_witness :
    (∀ x z : Nat, x < 2 → z < 2 →
      2 ≤ columnHeight (fun _ _ => (1 : ℚ)/4) 8 (x : Int) (z : Int))
  ∧ occupancyUnique (generateWorld (fun _ _ => (1 : ℚ)/4) 2 8) := by
  have hyp : ∀ x z : Nat, x < 2 → z < 2 →
      2 ≤ columnHeight (fun _ _ => (1 : ℚ)/4) 8 (x : Int) (z : Int) := by
    intro x z _ _
    rw [columnHeight_const ((1 : ℚ)/4) 8 2 (by norm_num)]
  exact ⟨hyp, occupancy_unique_C2_amended.1 _ 2 8 hyp⟩

/-! ### Claim C3 -/

/-- C3 counterexample: in the scenario (world_size 1, world_height 8, zero
noise) the bedrock written last at y = -1 does not overwrite the dirt
written earlier there: the cell at (0, -1, 0) holds both entities, so it
does not end up holding bedrock alone. -/
theorem scenario_zero_noise_C3_counterexample :
    blocksAt (generateWorld (fun _ _ => (0 : ℚ)) 1 8) ⟨0, -1, 0⟩ = ["dirt", "bedrock"]
  ∧ blocksAt (generateWorld (fun _ _ => (0 : ℚ)) 1 8) ⟨0, -1, 0⟩ ≠ ["bedrock"] := by
  rw [generateWorld_zeroNoise]
  exact ⟨by decide, by decide⟩

/-- C3 (corrected): with world_size 1, world_height 8 and zero noise,
generation produces the single column grass at y = 0, dirt at y = -1 and
y = -2, an empty stone range, and bedrock at y = -1 created last; the cell
at y = -1 keeps both the dirt and the bedrock entity (dirt first, bedrock
last in creation order) since nothing overwrites entities. -/
theorem scenario_zero_noise_C3_amended :
    generateWorld (fun _ _ => (0 : ℚ)) 1 8 =
      [⟨⟨0, 0, 0⟩, "grass"⟩, ⟨⟨0, -1, 0⟩, "dirt"⟩, ⟨⟨0, -2, 0⟩, "dirt"⟩,
        ⟨⟨0, -1, 0⟩, "bedrock"⟩]
  ∧ blocksAt (generateWorld (fun _ _ => (0 : ℚ)) 1 8) ⟨0, 0, 0⟩ = ["grass"]
  ∧ blocksAt (generateWorld (fun _ _ => (0 : ℚ)) 1 8) ⟨0, -2, 0⟩ = ["dirt"]
  ∧ blocksAt (generateWorld (fun _ _ => (0 : ℚ)) 1 8) ⟨0, -1, 0⟩ = ["dirt", "bedrock"]
  ∧ stoneYs (columnHeight (fun _ _ => (0 : ℚ)) 8 0 0) = [] := by
  rw [generateWorld_zeroNoise, columnHeight_const 0 8 0 (by norm_num) 0 0]
  exact ⟨rfl, by decide, by decide, by decide, by decide⟩

/-! ### Claim C4 -/

theorem roundedCell_intCast (a b c : Int) :
    roundedCell ⟨(a : ℚ), (b : ℚ), (c : ℚ)⟩ = ⟨a, b, c⟩ := by
  simp [roundedCell, pyRound_intCast]

/-- C4 counterexample: placing wood onto the already occupied cell (0, 0, 0)
(grass surface of the zero-noise world) succeeds but does not replace: the
cell afterwards holds both the grass and the wood entity. -/
theorem place_roundtrip_C4_counterexample :
    place (generateWorld (fun _ _ => (0 : ℚ)) 1 8) ⟨0, 0, 0⟩ "wood" ⟨0, 50, 0⟩ =
      some (generateWorld (fun _ _ => (0 : ℚ)) 1 8 ++ [⟨⟨0, 0, 0⟩, "wood"⟩],
        Outcome.placed)
  ∧ blocksAt (generateWorld (fun _ _ => (0 : ℚ)) 1 8 ++ [⟨⟨0, 0, 0⟩, "wood"⟩])
      ⟨0, 0, 0⟩ = ["grass", "wood"]
  ∧ blocksAt (generateWorld (fun _ _ => (0 : ℚ)) 1 8 ++ [⟨⟨0, 0, 0⟩, "wood"⟩])
      ⟨0, 0, 0⟩ ≠ ["wood"] := by
  rw [generateWorld_zeroNoise]
  refine ⟨?_, by decide, by decide⟩
  rw [place, if_neg, mkVoxel, if_pos (by decide)]
  · rfl
  · intro hcon
    have hy := hcon.2.1
    rw [show ((50 : ℚ)) = ((50 : Int) : ℚ) by norm_num, pyRound_intCast] at hy
    exact absurd hy (by decide)

/-- C4 (corrected): for any block type T and any coordinate c other than the
actor's rounded cell, `place` succeeds and appends an entity of type T at c,
so the most recent block at c is T; but a block previously at c is not
removed — the placement appends rather than replaces. -/
theorem place_roundtrip_C4_amended (w : World) (c : Coord) (t : String) (p : Vec3)
    (ht : t ∈ BLOCK_TYPE_NAMES) (hc : c ≠ roundedCell p) :
    place w c t p = some (w ++ [⟨c, t⟩], Outcome.placed)
  ∧ blocksAt (w ++ [⟨c, t⟩]) c = blocksAt w c ++ [t]
  ∧ lastBlockAt (w ++ [⟨c, t⟩]) c = some t := by
  have hcond : ¬ (c.x = pyRound p.x ∧ c.y = pyRound p.y ∧ c.z = pyRound p.z) := by
    intro hcon
    refine hc ?_
    cases c
    simp only [roundedCell, Coord.mk.injEq]
    exact ⟨hcon.1, hcon.2.1, hcon.2.2⟩
  refine ⟨?_, ?_, ?_⟩
  · rw [place, if_neg hcond, mkVoxel, if_pos ht]
    rfl
  · rw [blocksAt_append, blocksAt_cons, if_pos rfl, blocksAt_nil]
  · rw [lastBlockAt, blocksAt_append, blocksAt_cons, if_pos rfl, blocksAt_nil]
    exact List.getLast?_concat _

/-- Witness for C4: placing stone at the origin with the player at (5,5,5). -/
theorem place_roundtrip_C4_witness :
    ("stone" ∈ BLOCK_TYPE_NAMES
      ∧ (⟨0, 0, 0⟩ : Coord) ≠ roundedCell ⟨(5 : ℚ), 5, 5⟩)
  ∧ place [] ⟨0, 0, 0⟩ "stone" ⟨(5 : ℚ), 5, 5⟩ =
      some ([⟨⟨0, 0, 0⟩, "stone"⟩], Outcome.placed)
  ∧ blocksAt [⟨⟨0, 0, 0⟩, "stone"⟩] ⟨0, 0, 0⟩ = blocksAt [] ⟨0, 0, 0⟩ ++ ["stone"]
  ∧ lastBlockAt [⟨⟨0, 0, 0⟩, "stone"⟩] ⟨0, 0, 0⟩ = some "stone" := by
  have h5 : roundedCell ⟨(5 : ℚ), 5, 5⟩ = ⟨5, 5, 5⟩ := by
    have := roundedCell_intCast 5 5 5
    norm_num at this
    exact this
  have hne : (⟨0, 0, 0⟩ : Coord) ≠ roundedCell ⟨(5 : ℚ), 5, 5⟩ := by
    rw [h5]
    decide
  have h := place_roundtrip_C4_amended [] ⟨0, 0, 0⟩ "stone" ⟨(5 : ℚ), 5, 5⟩
    (by decide) hne
  exact ⟨⟨by decide, hne⟩, h.1, h.2.1, h.2.2⟩

/-! ### Claim C5 -/

/-- C5 counterexample: the coordinate (0, -1, 0) of the height-1 generated
world holds a bedrock block, yet destroying the (hovered) dirt entity that
shares that coordinate succeeds and changes the world — the destroy guard is
per picked entity, not per coordinate. -/
theorem destroy_bedrock_C5_counterexample :
    "bedrock" ∈ blocksAt (generateWorld (fun _ _ => (1 : ℚ)/8) 1 8) ⟨0, -1, 0⟩
  ∧ voxelInput (generateWorld (fun _ _ => (1 : ℚ)/8) 1 8) 2 true Key.leftMouseDown
      ⟨0, 1, 0⟩ ⟨0, 50, 0⟩ "grass" =
      some ((generateWorld (fun _ _ => (1 : ℚ)/8) 1 8).eraseIdx 2, Outcome.removed)
  ∧ (generateWorld (fun _ _ => (1 : ℚ)/8) 1 8).eraseIdx 2 ≠
      generateWorld (fun _ _ => (1 : ℚ)/8) 1 8 := by
  rw [generateWorld_eighthNoise]
  refine ⟨by decide, ?_, by decide⟩
  rw [voxelInput_destroy_eq _ _ _ _ _ ⟨⟨0, -1, 0⟩, "dirt"⟩ (by decide),
    if_pos (by decide)]

/-- C5 (corrected): the bedrock check is per destroyed entity: destroying a
bedrock entity always leaves the world unchanged (the guard rejects it),
and destroying any non-bedrock entity removes exactly that entity —
regardless of prior state or caller.  At a coordinate holding both a
destructible block and bedrock, destroying the destructible one succeeds. -/
theorem destroy_entity_C5_amended (w : World) (i : Nat) (n : Coord) (p : Vec3)
    (cur : String) (e : Entity) (he : w[i]? = some e) :
    (e.block_type = "bedrock" →
      voxelInput w i true Key.leftMouseDown n p cur = some (w, Outcome.indestructible))
  ∧ (e.block_type ≠ "bedrock" →
      voxelInput w i true Key.leftMouseDown n p cur =
        some (w.eraseIdx i, Outcome.removed)) := by
  rw [voxelInput_destroy_eq w i n p cur e he]
  constructor
  · intro hb
    rw [if_neg (fun hne => hne hb)]
  · intro hb
    rw [if_pos hb]

/-- Witness for C5: destroying a bedrock entity is rejected and leaves the
world unchanged. -/
theorem destroy_entity_C5_witness :
    ([⟨⟨0, 0, 0⟩, "bedrock"⟩, ⟨⟨1, 0, 0⟩, "grass"⟩] : World)[0]? =
      some ⟨⟨0, 0, 0⟩, "bedrock"⟩
  ∧ voxelInput [⟨⟨0, 0, 0⟩, "bedrock"⟩, ⟨⟨1, 0, 0⟩, "grass"⟩] 0 true
      Key.leftMouseDown ⟨0, 0, 1⟩ ⟨0, 0, 0⟩ "grass" =
      some ([⟨⟨0, 0, 0⟩, "bedrock"⟩, ⟨⟨1, 0, 0⟩, "grass"⟩], Outcome.indestructible) :=
  ⟨by decide,
    (destroy_entity_C5_amended _ 0 _ _ _ ⟨⟨0, 0, 0⟩, "bedrock"⟩ (by decide)).1 rfl⟩

/-! ### Claim C6 -/

/-- C6 (confirmed): `place` fails with the occupied-by-actor rejection (and
leaves the world unchanged) exactly when the target equals the player
position rounded per axis, and succeeds — appending the block — whenever any
axis differs. -/
theorem place_actor_guard_C6 (w : World) (c : Coord) (p : Vec3) (cur : String)
    (hcur : cur ∈ BLOCK_TYPE_NAMES) :
    (c = roundedCell p → place w c cur p = some (w, Outcome.occupiedByActor))
  ∧ (c ≠ roundedCell p →
      place w c cur p = some (w ++ [⟨c, cur⟩], Outcome.placed)) := by
  constructor
  · intro hc
    rw [place, if_pos ⟨by rw [hc]; rfl, by rw [hc]; rfl, by rw [hc]; rfl⟩]
  · intro hc
    have hcond : ¬ (c.x = pyRound p.x ∧ c.y = pyRound p.y ∧ c.z = pyRound p.z) := by
      intro hcon
      refine hc ?_
      cases c
      simp only [roundedCell, Coord.mk.injEq]
      exact ⟨hcon.1, hcon.2.1, hcon.2.2⟩
    rw [place, if_neg hcond, mkVoxel, if_pos hcur]
    rfl

/-- Witness for C6: with the player at the origin, placing at the origin is
rejected without a state change. -/
theorem place_actor_guard_C6_witness :
    ("grass" ∈ BLOCK_TYPE_NAMES ∧ (⟨0, 0, 0⟩ : Coord) = roundedCell ⟨0, 0, 0⟩)
  ∧ place [] ⟨0, 0, 0⟩ "grass" ⟨0, 0, 0⟩ = some ([], Outcome.occupiedByActor) := by
  have h0 : pyRound (0 : ℚ) = 0 := by
    rw [show (0 : ℚ) = ((0 : Int) : ℚ) by norm_num]
    exact pyRound_intCast 0
  have hr : (⟨0, 0, 0⟩ : Coord) = roundedCell ⟨0, 0, 0⟩ := by
    simp [roundedCell, h0]
  exact ⟨⟨by decide, hr⟩,
    (place_actor_guard_C6 [] ⟨0, 0, 0⟩ ⟨0, 0, 0⟩ "grass" (by decide)).1 hr⟩

/-! ### Claim C7 -/

/-- C7 (confirmed): with no hover (no pick hit) every key is a no-op for
both actions, and a right-mouse place from a hovered entity targets exactly
`self.position + mouse.normal` with the currently selected block type — a
cell different from the hit cell whenever the face normal is nonzero. -/
theorem pick_dispatch_C7 (w : World) (i : Nat) (key : Key) (n : Coord) (p : Vec3)
    (cur : String) (e : Entity) (he : w[i]? = some e) :
    voxelInput w i false key n p cur = some (w, Outcome.noop)
  ∧ voxelInput w i true Key.rightMouseDown n p cur = place w (e.pos + n) cur p
  ∧ (n ≠ ⟨0, 0, 0⟩ → e.pos + n ≠ e.pos) := by
  refine ⟨voxelInput_not_hovered w i key n p cur,
    voxelInput_place_eq w i n p cur e he, ?_⟩
  intro hn hcon
  apply hn
  obtain ⟨⟨px, py, pz⟩, bt⟩ := e
  obtain ⟨nx, ny, nz⟩ := n
  rw [Coord.add_def] at hcon
  simp only [Coord.mk.injEq] at hcon ⊢
  omega

/-- Witness for C7 on a one-block world: no hover is a no-op and the hovered
place call delegates to `place` at the neighbour cell. -/
theorem pick_dispatch_C7_witness :
    ([⟨⟨0, 0, 0⟩, "grass"⟩] : World)[0]? = some ⟨⟨0, 0, 0⟩, "grass"⟩
  ∧ voxelInput [⟨⟨0, 0, 0⟩, "grass"⟩] 0 false (Key.otherKey "w") ⟨0, 1, 0⟩
      ⟨9, 9, 9⟩ "dirt" = some ([⟨⟨0, 0, 0⟩, "grass"⟩], Outcome.noop)
  ∧ voxelInput [⟨⟨0, 0, 0⟩, "grass"⟩] 0 true Key.rightMouseDown ⟨0, 1, 0⟩
      ⟨9, 9, 9⟩ "dirt" =
      place [⟨⟨0, 0, 0⟩, "grass"⟩] ((⟨0, 0, 0⟩ : Coord) + ⟨0, 1, 0⟩) "dirt"
        ⟨9, 9, 9⟩ := by
  have h := pick_dispatch_C7 [⟨⟨0, 0, 0⟩, "grass"⟩] 0 (Key.otherKey "w")
    ⟨0, 1, 0⟩ ⟨9, 9, 9⟩ "dirt" ⟨⟨0, 0, 0⟩, "grass"⟩ (by decide)
  exact ⟨by decide, h.1, h.2.1⟩

/-! ### Claim C8 -/

theorem globalInput_no_sel (k : String) (st : GlobalState)
    (hk : selKeyHit k = false) :
    globalInput k st = some ⟨st.current_block_type,
      if st.player.y < fall_threshold then respawn_position else st.player⟩ := by
  simp [globalInput, hk]

theorem globalInput_sel (k bt : String) (st : GlobalState)
    (hk : selKeyHit k = true) (hbt : block_map.lookup k = some bt) :
    globalInput k st = some ⟨bt,
      if st.player.y < fall_threshold then respawn_position else st.player⟩ := by
  simp [globalInput, hk, hbt]

/-- C8 counterexample: the key "1" is not a registered block name, yet the
selection handler accepts it and changes the selection (to grass) instead of
failing and keeping the previous selection. -/
theorem select_block_C8_counterexample :
    "1" ∉ BLOCK_TYPE_NAMES
  ∧ globalInput "1" ⟨"wood", ⟨0, 0, 0⟩⟩ = some ⟨"grass", ⟨0, 0, 0⟩⟩
  ∧ ("grass" : String) ≠ "wood" := by
  refine ⟨by decide, ?_, by decide⟩
  rw [globalInput_sel "1" "grass" _ (by decide) (by decide)]
  rw [if_neg (by norm_num [fall_threshold])]

/-- C8 (corrected): the selection vocabulary is the keys "1"-"4" (mapping to
grass, dirt, stone, wood), not catalog names: any key failing the digit
guard — in particular every non-digit name such as "lava", registered or
not — leaves the previous selection active (there is no UnknownBlockType
report, the key is silently ignored); a key of the table updates the
selection to its mapped type; the selection initially is grass. -/
theorem select_block_C8_amended :
    (∀ (k sel : String) (p : Vec3), selKeyHit k = false →
      globalInput k ⟨sel, p⟩ =
        some ⟨sel, if p.y < fall_threshold then respawn_position else p⟩)
  ∧ (∀ (k bt sel : String) (p : Vec3), (k, bt) ∈ block_map →
      globalInput k ⟨sel, p⟩ =
        some ⟨bt, if p.y < fall_threshold then respawn_position else p⟩)
  ∧ initial_current_block_type = "grass"
  ∧ selKeyHit "lava" = false := by
  refine ⟨?_, ?_, rfl, by decide⟩
  · intro k sel p hk
    exact globalInput_no_sel k ⟨sel, p⟩ hk
  · intro k bt sel p hmem
    fin_cases hmem <;> exact globalInput_sel _ _ _ (by decide) (by decide)

/-- Witness for C8: the unregistered name "lava" leaves the selection as it
was. -/
theorem select_block_C8_witness :
    selKeyHit "lava" = false
  ∧ globalInput "lava" ⟨"dirt", ⟨0, 0, 0⟩⟩ = some ⟨"dirt", ⟨0, 0, 0⟩⟩ := by
  refine ⟨by decide, ?_⟩
  rw [select_block_C8_amended.1 "lava" "dirt" ⟨0, 0, 0⟩ (by decide)]
  rw [if_neg (by norm_num [fall_threshold])]

/-! ### Claim C9 -/

/-- C9 counterexample: a frame tick with the actor far below the threshold
runs no repository code and resets nothing — the fall-recovery check does
not run once per frame tick, it only runs inside the key handler. -/
theorem fall_recovery_C9_counterexample :
    stepEvent ⟨"grass", ⟨0, -20, 0⟩⟩ FrameEvent.frameTick =
      some ⟨"grass", ⟨0, -20, 0⟩⟩
  ∧ (⟨0, -20, 0⟩ : Vec3).y < fall_threshold
  ∧ (⟨0, -20, 0⟩ : Vec3) ≠ respawn_position := by
  refine ⟨rfl, by norm_num [fall_threshold], ?_⟩
  intro hcon
  have hy := congrArg Vec3.y hcon
  norm_num [respawn_position, world_height] at hy

/-- C9 (corrected): the fall-recovery check runs on each key event, not once
per frame tick (a frame tick leaves the handler state untouched); whenever
the handler runs with `player.y < -10` it resets the player to the respawn
position, and it resets nothing when `player.y ≥ -10`.  It operates only on
the selection/player state, never on the block entities. -/
theorem fall_recovery_C9_amended :
    (∀ st : GlobalState, stepEvent st FrameEvent.frameTick = some st)
  ∧ (∀ (k sel : String) (p : Vec3) (st' : GlobalState),
      globalInput k ⟨sel, p⟩ = some st' →
      (p.y < fall_threshold → st'.player = respawn_position)
      ∧ (¬ p.y < fall_threshold → st'.player = p)) := by
  refine ⟨fun st => rfl, ?_⟩
  intro k sel p st' hstep
  have hcore : ∃ selv : String,
      st' = ⟨selv, if p.y < fall_threshold then respawn_position else p⟩ := by
    by_cases hk : selKeyHit k
    · cases hbt : block_map.lookup k with
      | none =>
          rw [globalInput] at hstep
          simp only [hk, if_true, hbt] at hstep
          exact absurd hstep (by simp)
      | some bt =>
          rw [globalInput] at hstep
          simp only [hk, if_true, hbt] at hstep
          injection hstep with h1
          exact ⟨bt, h1.symm⟩
    · rw [globalInput] at hstep
      simp only [hk, Bool.false_eq_true, if_false] at hstep
      injection hstep with h1
      exact ⟨sel, h1.symm⟩
  obtain ⟨selv, rfl⟩ := hcore
  constructor
  · intro hy
    show (if p.y < fall_threshold then respawn_position else p) = respawn_position
    rw [if_pos hy]
  · intro hy
    show (if p.y < fall_threshold then respawn_position else p) = p
    rw [if_neg hy]

/-- Witness for C9: a key event with the actor at y = -20 resets the player
to the respawn position. -/
theorem fall_recovery_C9_witness :
    globalInput "x" ⟨"grass", ⟨0, -20, 0⟩⟩ = some ⟨"grass", respawn_position⟩
  ∧ (⟨0, -20, 0⟩ : Vec3).y < fall_threshold
  ∧ (⟨"grass", respawn_position⟩ : GlobalState).player = respawn_position := by
  have hstep : globalInput "x" ⟨"grass", ⟨0, -20, 0⟩⟩ =
      some ⟨"grass", respawn_position⟩ := by
    rw [globalInput_no_sel "x" _ (by decide)]
    rw [if_pos (by norm_num [fall_threshold])]
  have hy : (⟨0, -20, 0⟩ : Vec3).y < fall_threshold := by
    norm_num [fall_threshold]
  exact ⟨hstep, hy,
    (fall_recovery_C9_amended.2 "x" "grass" ⟨0, -20, 0⟩ _ hstep).1 hy⟩

/-! ### Claim C10 -/

/-- C10 (confirmed): a successful destroy of a non-bedrock entity removes
exactly that entity — the block count at its coordinate drops by one and the
blocks at every other coordinate are unchanged; a place call (successful or
rejected) leaves every coordinate other than its target unchanged. -/
theorem frame_effect_C10 :
    (∀ (w : World) (i : Nat) (n : Coord) (p : Vec3) (cur : String) (e : Entity),
      w[i]? = some e → e.block_type ≠ "bedrock" →
      voxelInput w i true Key.leftMouseDown n p cur =
          some (w.eraseIdx i, Outcome.removed)
        ∧ (∀ c : Coord, c ≠ e.pos → blocksAt (w.eraseIdx i) c = blocksAt w c)
        ∧ (blocksAt (w.eraseIdx i) e.pos).length + 1 = (blocksAt w e.pos).length)
  ∧ (∀ (w : World) (c : Coord) (t : String) (p : Vec3) (res : World × Outcome),
      place w c t p = some res →
      ∀ c' : Coord, c' ≠ c → blocksAt res.1 c' = blocksAt w c') := by
  constructor
  · intro w i n p cur e he hb
    refine ⟨?_, (blocksAt_eraseIdx w i e he).1, (blocksAt_eraseIdx w i e he).2⟩
    rw [voxelInput_destroy_eq w i n p cur e he, if_pos hb]
  · intro w c t p res hplace c' hc'
    rw [place] at hplace
    by_cases hcp : c.x = pyRound p.x ∧ c.y = pyRound p.y ∧ c.z = pyRound p.z
    · rw [if_pos hcp] at hplace
      injection hplace with h1
      cases h1
      rfl
    · rw [if_neg hcp, mkVoxel] at hplace
      by_cases ht : t ∈ BLOCK_TYPE_NAMES
      · rw [if_pos ht] at hplace
        simp only [Option.map_some'] at hplace
        injection hplace with h1
        cases h1
        rw [blocksAt_append, blocksAt_cons,
          if_neg (fun hh => hc' hh.symm), blocksAt_nil, List.append_nil]
      · rw [if_neg ht] at hplace
        simp at hplace

/-- Witness for C10: destroying the grass entity of a two-block world keeps
the other coordinate's content unchanged. -/
theorem frame_effect_C10_witness :
    ([⟨⟨0, 0, 0⟩, "grass"⟩, ⟨⟨0, 1, 0⟩, "dirt"⟩] : World)[0]? =
      some ⟨⟨0, 0, 0⟩, "grass"⟩
  ∧ ("grass" : String) ≠ "bedrock"
  ∧ voxelInput [⟨⟨0, 0, 0⟩, "grass"⟩, ⟨⟨0, 1, 0⟩, "dirt"⟩] 0 true
      Key.leftMouseDown ⟨0, 0, 1⟩ ⟨0, 0, 0⟩ "grass" =
      some (([⟨⟨0, 0, 0⟩, "grass"⟩, ⟨⟨0, 1, 0⟩, "dirt"⟩] : World).eraseIdx 0,
        Outcome.removed)
  ∧ blocksAt (([⟨⟨0, 0, 0⟩, "grass"⟩, ⟨⟨0, 1, 0⟩, "dirt"⟩] : World).eraseIdx 0)
      ⟨0, 1, 0⟩ = blocksAt [⟨⟨0, 0, 0⟩, "grass"⟩, ⟨⟨0, 1, 0⟩, "dirt"⟩] ⟨0, 1, 0⟩ := by
  have h := frame_effect_C10.1 [⟨⟨0, 0, 0⟩, "grass"⟩, ⟨⟨0, 1, 0⟩, "dirt"⟩] 0
    ⟨0, 0, 1⟩ ⟨0, 0, 0⟩ "grass" ⟨⟨0, 0, 0⟩, "grass"⟩ (by decide) (by decide)
  exact ⟨by decide, by decide, h.1, h.2.1 ⟨0, 1, 0⟩ (by decide)⟩
